import Mathlib

/-!
Shallow embedding of the query-compilation core of the waterline-postgresql
adapter (src/lib/util.js and src/lib/adapter.js), together with proofs about
the claims of its specification.

JavaScript values that flow through the compiler are modelled by `JSValue`;
machine strings are Lean `String`s (the identifiers involved are ASCII, so
JS UTF-16 code-unit indexing and Lean character indexing agree on them).
External primitives (`JSON.parse`, lodash `_.uniqBy` / `_.compact`) are
embedded from their documented semantics; everything else is translated
from the adapter's source.
-/

namespace PgAdapter

/-- A JavaScript value as it appears in the adapter's data flow: `null`
(also standing for `undefined` where the distinction is irrelevant),
booleans, numbers, strings, arrays and plain objects.  JSON numbers are
kept as their literal text: no claim below depends on numeric value
identity, only on shape. -/
inductive JSValue where
  | null : JSValue
  | boolean : Bool → JSValue
  | number : String → JSValue
  | str : String → JSValue
  | arr : List JSValue → JSValue
  | obj : List (String × JSValue) → JSValue
deriving Repr, Inhabited

mutual

/-- Structural value equality on `JSValue`, standing in for JavaScript's
SameValueZero comparison (the comparison lodash uses for computed keys).
The values compared in this development are primitives, on which
SameValueZero and structural equality agree. -/
def beqJS : JSValue → JSValue → Bool
  | JSValue.null, JSValue.null => true
  | JSValue.boolean a, JSValue.boolean b => a = b
  | JSValue.number a, JSValue.number b => a = b
  | JSValue.str a, JSValue.str b => a = b
  | JSValue.arr xs, JSValue.arr ys => beqJSList xs ys
  | JSValue.obj fs, JSValue.obj gs => beqJSFields fs gs
  | _, _ => false

/-- Pointwise `beqJS` on lists of values. -/
def beqJSList : List JSValue → List JSValue → Bool
  | [], [] => true
  | x :: xs, y :: ys => beqJS x y && beqJSList xs ys
  | _, _ => false

/-- Pointwise `beqJS` on object field lists. -/
def beqJSFields : List (String × JSValue) → List (String × JSValue) → Bool
  | [], [] => true
  | (k, v) :: fs, (l, w) :: gs => k = l && beqJS v w && beqJSFields fs gs
  | _, _ => false

end

/-- SameValueZero comparison of two lodash iteratee keys, where `none`
is the `undefined` produced by `_.get` on a value without the
property. -/
def beqOptKey : Option JSValue → Option JSValue → Bool
  | none, none => true
  | some a, some b => beqJS a b
  | _, _ => false

/-- JavaScript truthiness of a `JSValue`: `null`/`undefined`, `false`,
`0` (and `-0`), `NaN` and the empty string are falsy; every other value,
in particular every object and array, is truthy. -/
def truthy : JSValue → Bool
  | JSValue.null => false
  | JSValue.boolean b => b
  | JSValue.number s => ¬(s = "0" ∨ s = "-0" ∨ s = "NaN")
  | JSValue.str s => ¬(s = "")
  | JSValue.arr _ => true
  | JSValue.obj _ => true

/-- `_.get(v, key)` for a single-segment path: property lookup on an
object, `undefined` (here `none`) on everything else. -/
def jsGet (v : JSValue) (key : String) : Option JSValue :=
  match v with
  | JSValue.obj fields => (fields.find? (fun f => f.1 = key)).map (fun f => f.2)
  | _ => none

/-! ### JSON.parse

`castValues` (src/lib/util.js:247-258) calls the host `JSON.parse` on any
string parameter that begins with `[`.  The parser below embeds the JSON
grammar that `JSON.parse` accepts (RFC 8259): it is fuel-indexed for
termination and rejects trailing garbage, exactly as `JSON.parse` does. -/

def isJsonWs (c : Char) : Bool :=
  c = ' ' ∨ c = '\t' ∨ c = '\n' ∨ c = '\r'

def isDigitChar (c : Char) : Bool :=
  '0' ≤ c ∧ c ≤ '9'

def isHexChar (c : Char) : Bool :=
  isDigitChar c ∨ ('a' ≤ c ∧ c ≤ 'f') ∨ ('A' ≤ c ∧ c ≤ 'F')

def hexVal (c : Char) : Nat :=
  if isDigitChar c then c.toNat - '0'.toNat
  else if 'a' ≤ c ∧ c ≤ 'f' then c.toNat - 'a'.toNat + 10
  else if 'A' ≤ c ∧ c ≤ 'F' then c.toNat - 'A'.toNat + 10
  else 0

def skipWs (s : List Char) : List Char :=
  s.dropWhile isJsonWs

/-- The opening-brace character, code point 123. -/
def lbraceChar : Char := Char.ofNat 123

/-- The closing-brace character, code point 125. -/
def rbraceChar : Char := Char.ofNat 125

/-- Parse the body of a JSON string literal (after the opening quote),
returning the decoded characters and the rest of the input. -/
def parseStringBody : List Char → Except String (List Char × List Char)
  | [] => Except.error "Unexpected end of JSON input"
  | c :: rest =>
    if c = '"' then Except.ok ([], rest)
    else if c = '\\' then
      match rest with
      | [] => Except.error "Unexpected end of JSON input"
      | e :: rest2 =>
        if e = 'u' then
          match rest2 with
          | h1 :: h2 :: h3 :: h4 :: rest3 =>
            if isHexChar h1 ∧ isHexChar h2 ∧ isHexChar h3 ∧ isHexChar h4 then
              match parseStringBody rest3 with
              | Except.ok (cs, rem) =>
                Except.ok (Char.ofNat
                  (((hexVal h1 * 16 + hexVal h2) * 16 + hexVal h3) * 16 + hexVal h4) :: cs, rem)
              | Except.error msg => Except.error msg
            else Except.error "Bad Unicode escape in JSON"
          | _ => Except.error "Unexpected end of JSON input"
        else
          match
            (if e = '"' then some '"'
             else if e = '\\' then some '\\'
             else if e = '/' then some '/'
             else if e = 'b' then some (Char.ofNat 8)
             else if e = 'f' then some (Char.ofNat 12)
             else if e = 'n' then some '\n'
             else if e = 'r' then some '\r'
             else if e = 't' then some '\t'
             else none) with
          | some d =>
            match parseStringBody rest2 with
            | Except.ok (cs, rem) => Except.ok (d :: cs, rem)
            | Except.error msg => Except.error msg
          | none => Except.error "Bad escape in JSON string"
    else if c.toNat < 32 then Except.error "Bad control character in JSON string"
    else
      match parseStringBody rest with
      | Except.ok (cs, rem) => Except.ok (c :: cs, rem)
      | Except.error msg => Except.error msg

/-- Parse a JSON number literal starting at the head of the input,
returning its raw text and the rest.  Grammar: `-? (0 | [1-9][0-9]*)
('.' [0-9]+)? ([eE] [+-]? [0-9]+)?`. -/
def parseNumber (s : List Char) : Except String (List Char × List Char) :=
  let (neg, s1) :=
    match s with
    | '-' :: rest => (['-'], rest)
    | _ => (([] : List Char), s)
  match s1 with
  | [] => Except.error "Unexpected end of JSON input"
  | c :: rest =>
    if ¬ isDigitChar c then Except.error "Unexpected token in JSON"
    else if c = '0' ∧ (rest.head?.elim false isDigitChar) then
      Except.error "Unexpected number in JSON"
    else
      let intPart := (c :: rest).takeWhile isDigitChar
      let s2 := (c :: rest).dropWhile isDigitChar
      let (fracPart, s3) :=
        match s2 with
        | '.' :: d :: rest2 =>
          if isDigitChar d then
            ('.' :: (d :: rest2).takeWhile isDigitChar, (d :: rest2).dropWhile isDigitChar)
          else (([] : List Char), s2)
        | _ => (([] : List Char), s2)
      if s3 ≠ s2 ∧ fracPart = [] then Except.error "Unexpected number in JSON"
      else
        match s3 with
        | e :: rest3 =>
          if e = 'e' ∨ e = 'E' then
            let (sgn, s4) :=
              match rest3 with
              | '+' :: r => (['+'], r)
              | '-' :: r => (['-'], r)
              | _ => (([] : List Char), rest3)
            match s4 with
            | d :: _ =>
              if isDigitChar d then
                Except.ok (neg ++ intPart ++ fracPart ++ e :: sgn ++ s4.takeWhile isDigitChar,
                  s4.dropWhile isDigitChar)
              else Except.error "Unexpected number in JSON"
            | [] => Except.error "Unexpected end of JSON input"
          else Except.ok (neg ++ intPart ++ fracPart, s3)
        | [] => Except.ok (neg ++ intPart ++ fracPart, s3)

mutual

/-- Parse one JSON value (after skipping leading whitespace). -/
def parseValue (fuel : Nat) (s : List Char) : Except String (JSValue × List Char) :=
  match fuel with
  | 0 => Except.error "JSON nesting too deep"
  | fuel + 1 =>
    match skipWs s with
    | [] => Except.error "Unexpected end of JSON input"
    | c :: rest =>
      if c = 'n' then
        match rest with
        | 'u' :: 'l' :: 'l' :: rem => Except.ok (JSValue.null, rem)
        | _ => Except.error "Unexpected token in JSON"
      else if c = 't' then
        match rest with
        | 'r' :: 'u' :: 'e' :: rem => Except.ok (JSValue.boolean true, rem)
        | _ => Except.error "Unexpected token in JSON"
      else if c = 'f' then
        match rest with
        | 'a' :: 'l' :: 's' :: 'e' :: rem => Except.ok (JSValue.boolean false, rem)
        | _ => Except.error "Unexpected token in JSON"
      else if c = '"' then
        match parseStringBody rest with
        | Except.ok (cs, rem) => Except.ok (JSValue.str (String.mk cs), rem)
        | Except.error msg => Except.error msg
      else if c = '[' then
        if (skipWs rest).head? = some ']' then
          Except.ok (JSValue.arr [], (skipWs rest).tail)
        else
          match parseElements fuel rest with
          | Except.ok (xs, rem) => Except.ok (JSValue.arr xs, rem)
          | Except.error msg => Except.error msg
      else if c = lbraceChar then
        if (skipWs rest).head? = some rbraceChar then
          Except.ok (JSValue.obj [], (skipWs rest).tail)
        else
          match parseMembers fuel rest with
          | Except.ok (fs, rem) => Except.ok (JSValue.obj fs, rem)
          | Except.error msg => Except.error msg
      else if c = '-' ∨ isDigitChar c then
        match parseNumber (c :: rest) with
        | Except.ok (cs, rem) => Except.ok (JSValue.number (String.mk cs), rem)
        | Except.error msg => Except.error msg
      else Except.error "Unexpected token in JSON"

/-- Parse a non-empty comma-separated list of array elements and the
closing `]`. -/
def parseElements (fuel : Nat) (s : List Char) : Except String (List JSValue × List Char) :=
  match fuel with
  | 0 => Except.error "JSON nesting too deep"
  | fuel + 1 =>
    match parseValue fuel s with
    | Except.error msg => Except.error msg
    | Except.ok (v, rem) =>
      match skipWs rem with
      | ',' :: rem2 =>
        match parseElements fuel rem2 with
        | Except.ok (xs, rem3) => Except.ok (v :: xs, rem3)
        | Except.error msg => Except.error msg
      | ']' :: rem2 => Except.ok ([v], rem2)
      | _ => Except.error "Expected comma or bracket in JSON array"

/-- Parse a non-empty comma-separated list of object members and the
closing brace. -/
def parseMembers (fuel : Nat) (s : List Char) : Except String (List (String × JSValue) × List Char) :=
  match fuel with
  | 0 => Except.error "JSON nesting too deep"
  | fuel + 1 =>
    match skipWs s with
    | '"' :: rest =>
      match parseStringBody rest with
      | Except.error msg => Except.error msg
      | Except.ok (key, rem) =>
        match skipWs rem with
        | ':' :: rem2 =>
          match parseValue fuel rem2 with
          | Except.error msg => Except.error msg
          | Except.ok (v, rem3) =>
            match skipWs rem3 with
            | ',' :: rem4 =>
              match parseMembers fuel rem4 with
              | Except.ok (fs, rem5) => Except.ok ((String.mk key, v) :: fs, rem5)
              | Except.error msg => Except.error msg
            | d :: rem4 =>
              if d = rbraceChar then Except.ok ([(String.mk key, v)], rem4)
              else Except.error "Expected comma or brace in JSON object"
            | [] => Except.error "Expected comma or brace in JSON object"
        | _ => Except.error "Expected colon in JSON object"
    | _ => Except.error "Expected string key in JSON object"

end

/-- `JSON.parse`: parse one JSON document; trailing non-whitespace is an
error, exactly as in the host function. -/
def jsonParse (s : String) : Except String JSValue :=
  match parseValue (s.length + 1) s.data with
  | Except.error msg => Except.error msg
  | Except.ok (v, rem) =>
    match skipWs rem with
    | [] => Except.ok v
    | _ => Except.error "Unexpected non-whitespace after JSON"

/-! ### Placeholder rewriting and parameter pre-processing
(src/lib/util.js:243-258) -/

/-- One step of `sql.replace(/\$\d+/g, s)` scanning.  The Boolean state
records whether the scanner is inside the digit run of a match already
rewritten (those digits are consumed).  A `$` whose next character is a
digit starts a match and is emitted as a single `?`; every other
character is copied unchanged. -/
def rawQueryAux : Bool → List Char → List Char
  | _, [] => []
  | inMatch, c :: rest =>
    if inMatch ∧ isDigitChar c then rawQueryAux true rest
    else if c = '$' ∧ rest.head?.elim false isDigitChar then
      '?' :: rawQueryAux true rest
    else c :: rawQueryAux false rest

/-- `toKnexRawQuery` (src/lib/util.js:243-245): rewrite the criteria
parser's `$n` placeholders into knex's `?` placeholders,
`sql.replace(/\$\d+/g, s)` with replacement string a question mark. -/
def toKnexRawQuery (sql : String) : String :=
  String.mk (rawQueryAux false sql.data)

/-- Number of `?` placeholders in a piece of SQL text. -/
def countQMarks : List Char → Nat
  | [] => 0
  | c :: rest => (if c = '?' then 1 else 0) + countQMarks rest

/-- Number of matches of the pattern `\$\d+` under the same scanning
discipline as `rawQueryAux` (same Boolean state). -/
def dollarMatches : Bool → List Char → Nat
  | _, [] => 0
  | inMatch, c :: rest =>
    if inMatch ∧ isDigitChar c then dollarMatches true rest
    else if c = '$' ∧ rest.head?.elim false isDigitChar then
      1 + dollarMatches true rest
    else dollarMatches false rest

/-- Pre-processing of a single bound parameter inside `castValues`
(src/lib/util.js:248-257): a string whose first character is `[` is
passed to `JSON.parse`; if that yields an array the array replaces the
string, a parse failure propagates as a thrown error, and every other
value is returned unchanged. -/
def castValue (v : JSValue) : Except String JSValue :=
  match v with
  | JSValue.str s =>
    if s.data.head? = some '[' then
      match jsonParse s with
      | Except.ok (JSValue.arr xs) => Except.ok (JSValue.arr xs)
      | Except.ok _ => Except.ok v
      | Except.error e => Except.error e
    else Except.ok v
  | _ => Except.ok v

/-- The guard of `castValue`: a string value whose first character is
`[` (src/lib/util.js:249). -/
def isBracketString : JSValue → Bool
  | JSValue.str s =>
    match s.data.head? with
    | some c => c = '['
    | none => false
  | _ => false

/-- `castValues` (src/lib/util.js:247-258): `_.map` of `castValue` over
the parameter list; the first thrown parse error aborts the whole call. -/
def castValues : List JSValue → Except String (List JSValue)
  | [] => Except.ok []
  | v :: rest =>
    match castValue v with
    | Except.error e => Except.error e
    | Except.ok w =>
      match castValues rest with
      | Except.error e => Except.error e
      | Except.ok ws => Except.ok (w :: ws)

/-! ### Schema mapping: columns and constraints (src/lib/util.js:57-241) -/

/-- The attribute properties read by `toKnexColumn`.  The source accesses
them as JS object properties; a missing property is `none`. -/
structure AttrObject where
  type : String
  autoIncrement : Bool := false
  columnName : Option String := none
  length : Option JSValue := none
  precision : Option JSValue := none
  scale : Option JSValue := none
  standard : Option JSValue := none
  enum : Option JSValue := none
  comment : Option JSValue := none
deriving Repr

/-- A waterline attribute definition as accepted by `toKnexColumn`:
either a bare type-tag string or an attribute object (the source tests
`_.isObject(attrDefinition)`). -/
inductive AttrDefinition where
  | strTag : String → AttrDefinition
  | objDef : AttrObject → AttrDefinition
deriving Repr

/-- `let attr = _.isObject(attrDefinition) ? attrDefinition : { type: attrDefinition }`
(src/lib/util.js:104). -/
def attrOfDefinition : AttrDefinition → AttrObject
  | AttrDefinition.objDef a => a
  | AttrDefinition.strTag s => { type := s }

/-- JS `String.prototype.toLowerCase` on the ASCII type tags the schema
uses. -/
def jsToLowerCase (s : String) : String :=
  String.mk (s.data.map fun c =>
    if 'A' ≤ c ∧ c ≤ 'Z' then Char.ofNat (c.toNat + 32) else c)

/-- `let type = attr.autoIncrement ? 'serial' : attr.type` followed by the
`type.toLowerCase()` of the switch scrutinee (src/lib/util.js:105,108). -/
def effectiveTypeTag (d : AttrDefinition) : String :=
  jsToLowerCase (if (attrOfDefinition d).autoIncrement then "serial" else (attrOfDefinition d).type)

/-- `let name = attr.columnName || _name` (src/lib/util.js:106); the empty
string is falsy. -/
def effectiveColumnName (_name : String) (d : AttrDefinition) : String :=
  match (attrOfDefinition d).columnName with
  | some c => if c = "" then _name else c
  | none => _name

/-- The knex column-builder calls that `toKnexColumn` can make, one
constructor per distinct call shape in src/lib/util.js:108-240. -/
inductive KnexColumn where
  | text (name : String) (textType : Option String)
  | stringCol (name : String) (length : Option JSValue)
  | specificType (name sqlType : String)
  | booleanCol (name : String)
  | integerCol (name : String)
  | bigIntegerCol (name : String)
  | floatCol (name : String) (precision scale : Option JSValue)
  | decimalCol (name : String) (precision scale : Option JSValue)
  | timeCol (name : String)
  | dateCol (name : String)
  | timestampCol (name : String) (standard : Option JSValue)
  | jsonCol (name : String) (jsonb : Bool)
  | binaryCol (name : String)
  | uuidCol (name : String) (defaultExpr : String)
  | enuCol (name : String) (values : Option JSValue)
  | commentCol (commentText : Option JSValue)
deriving Repr

/-- The lowercased type tags recognised by the switch in `toKnexColumn`
(src/lib/util.js:108-236); everything else falls to the default branch.
`sqlType` lowercases to `sqltype`, so the two source labels are one tag. -/
def supportedTypeTags : List String :=
  ["character varying", "text", "mediumtext", "longtext", "string",
   "serial", "smallserial", "bigserial", "boolean", "int", "integer",
   "smallint", "bigint", "biginteger", "real", "float", "double",
   "decimal", "time", "date", "datestamp", "datetime", "array", "json",
   "jsonb", "binary", "bytea", "uuid", "enum", "enu", "comment", "sqltype"]

/-- `toKnexColumn` (src/lib/util.js:103-241): map an attribute definition
to one knex column-builder call.  The second component counts the
`console.error` diagnostics emitted (the default branch logs exactly one
and degrades to `table.text(name)`). -/
def toKnexColumn (_name : String) (d : AttrDefinition) : KnexColumn × Nat :=
  let attr := attrOfDefinition d
  let type := if attr.autoIncrement then "serial" else attr.type
  let name := effectiveColumnName _name d
  match effectiveTypeTag d with
  | "character varying" | "text" | "mediumtext" | "longtext" =>
    (KnexColumn.text name (some type), 0)
  | "string" => (KnexColumn.stringCol name attr.length, 0)
  | "serial" | "smallserial" => (KnexColumn.specificType name "serial", 0)
  | "bigserial" => (KnexColumn.specificType name "bigserial", 0)
  | "boolean" => (KnexColumn.booleanCol name, 0)
  | "int" | "integer" | "smallint" => (KnexColumn.integerCol name, 0)
  | "bigint" | "biginteger" => (KnexColumn.bigIntegerCol name, 0)
  | "real" | "float" => (KnexColumn.floatCol name attr.precision attr.scale, 0)
  | "double" => (KnexColumn.floatCol name (some (JSValue.number "15")) attr.scale, 0)
  | "decimal" => (KnexColumn.decimalCol name attr.precision attr.scale, 0)
  | "time" => (KnexColumn.timeCol name, 0)
  | "date" => (KnexColumn.dateCol name, 0)
  | "datestamp" | "datetime" => (KnexColumn.timestampCol name attr.standard, 0)
  | "array" => (KnexColumn.specificType name "text ARRAY", 0)
  | "json" => (KnexColumn.jsonCol name false, 0)
  | "jsonb" => (KnexColumn.jsonCol name true, 0)
  | "binary" | "bytea" => (KnexColumn.binaryCol name, 0)
  | "uuid" => (KnexColumn.uuidCol name "uuid_generate_v4()", 0)
  | "enum" | "enu" => (KnexColumn.enuCol name attr.enum, 0)
  | "comment" => (KnexColumn.commentCol attr.comment, 0)
  | "sqltype" => (KnexColumn.specificType name type, 0)
  | _ => (KnexColumn.text name none, 1)

/-- The effect of one `applyParticularColumnConstraint` call: either no
column operation at all, one of the recognised column operations, or the
`console.error` diagnostic of the default branch. -/
inductive ConstraintAction where
  | noop
  | indexOp (indexName indexType : Option JSValue)
  | uniqueOp
  | notNullableOp
  | defaultToOp (v : JSValue)
  | unknownConstraintDiag (name : String)
deriving Repr

/-- `applyParticularColumnConstraint` (src/lib/util.js:70-101):
`if (!value) return` short-circuits every falsy constraint value before
the switch, so falsy values never produce a column operation. -/
def applyParticularColumnConstraint (constraintName : String) (value : JSValue) :
    ConstraintAction :=
  if ¬ truthy value then ConstraintAction.noop
  else match constraintName with
    | "index" =>
      ConstraintAction.indexOp (jsGet value "indexName") (jsGet value "indexType")
    | "unique" => ConstraintAction.uniqueOp
    | "notNull" => ConstraintAction.notNullableOp
    | "defaultsTo" => ConstraintAction.defaultToOp value
    | "type" | "primaryKey" | "autoIncrement" | "on" | "via" | "foreignKey"
    | "references" | "model" | "alias" => ConstraintAction.noop
    | other => ConstraintAction.unknownConstraintDiag other

/-- `applyColumnConstraints` (src/lib/util.js:57-68): a string definition
produces no constraint operations; an object definition is mapped
property-by-property, with `defaultsTo = 'AUTO_INCREMENT'` skipped on
auto-increment attributes. -/
def applyColumnConstraints (definition : JSValue) : List ConstraintAction :=
  match definition with
  | JSValue.str _ => []
  | JSValue.obj fields =>
    fields.map fun kv =>
      if kv.1 = "defaultsTo"
          ∧ truthy (((fields.find? (fun f => f.1 = "autoIncrement")).map (·.2)).getD JSValue.null)
          ∧ beqJS kv.2 (JSValue.str "AUTO_INCREMENT") then
        ConstraintAction.noop
      else applyParticularColumnConstraint kv.1 kv.2
  | _ => []

/-! ### Criteria, joins and query assembly (src/lib/util.js:273-370) -/

/-- `PG_MAX_INT` (src/lib/util.js:7). -/
def PG_MAX_INT : Int := 2147483647

/-- JavaScript `v || d` for an optional number: a missing value and the
falsy number `0` both fall back to the default. -/
def jsOrInt (v : Option Int) (d : Int) : Int :=
  match v with
  | some x => if x = 0 then d else x
  | none => d

/-- The criteria fields read by this compiler.  `whereConditions` stands
for the filter keys that survive the
`_.omit(options, ['sort', 'limit', 'groupBy', 'skip'])` of
`buildWhereClause` and are handed to the external criteria parser. -/
structure Criteria where
  whereConditions : List (String × JSValue) := []
  sort : List (String × Int) := []
  limit : Option Int := none
  skip : Option Int := none
deriving Repr

/-- A waterline join specification, with the fields read by the planner
(src/lib/util.js:299-370).  `aliasName` models the source's `alias`
property (`alias` is taken in Lean); a join with `select: false` is
excluded from the select list. -/
structure Join where
  aliasName : String
  parent : String
  parentKey : String
  child : String
  childKey : String
  junctionTable : Bool := false
  removeParentKey : Bool := false
  criteria : Option Criteria := none
  select : Option Bool := none
deriving Repr

/-- The options object of a joined find: criteria plus the join list. -/
structure FindOptions extends Criteria where
  joins : List Join := []
deriving Repr

/-- `buildOrderByClause` (src/lib/util.js:311-321). -/
def buildOrderByClause (tableName : String) (options : Criteria) : String :=
  if options.sort.isEmpty then "1"
  else
    String.intercalate ", "
      (options.sort.map fun fd =>
        "\"" ++ tableName ++ "\".\"" ++ fd.1 ++ "\" " ++ (if fd.2 = 1 then "" else "desc"))

/-- The output of `buildWhereClause` (src/lib/util.js:323-330), modelled
symbolically at the external-collaborator boundary: the criteria parser
(`waterline-sequel`) receives the table name and the criteria with
`sort`/`limit`/`groupBy`/`skip` stripped (spec §6), and its parameterized
fragment is then rewritten by `toKnexRawQuery`/`castValues`. -/
structure WhereClause where
  tableName : String
  conditions : List (String × JSValue)
deriving Repr

/-- `buildWhereClause` (src/lib/util.js:323-330) at the external parser
boundary. -/
def buildWhereClause (tableName : String) (options : Criteria) : WhereClause :=
  { tableName := tableName, conditions := options.whereConditions }

/-- `getJoinAlias` (src/lib/util.js:332-339). -/
def getJoinAlias (join : Join) : String :=
  if join.aliasName ≠ join.parentKey ∧ join.removeParentKey = true then join.parentKey
  else join.aliasName

/-- `getParentAlias` (src/lib/util.js:341-348). -/
def getParentAlias (join : Join) : String :=
  if join.junctionTable then getJoinAlias join ++ join.parent
  else join.parent

/-- `getSubqueryAlias` (src/lib/util.js:350-352). -/
def getSubqueryAlias (join : Join) : String :=
  getJoinAlias join ++ join.child

/-- The correlated subquery assembled by `buildKnexJoinSubquery`:
`knex.select().from(child).where(...).andWhereRaw(correlation)`. -/
structure KnexSubquery where
  fromTable : String
  whereClause : WhereClause
  correlation : String
deriving Repr

/-- `buildKnexJoinSubquery` (src/lib/util.js:299-309).  The raw equality
correlation is
`"child"."childKey" = "parentAlias"."parentKey"` with the parent alias
resolved by `getParentAlias`. -/
def buildKnexJoinSubquery (join : Join) : KnexSubquery :=
  let criteria := join.criteria.getD { }
  { fromTable := join.child
    whereClause := buildWhereClause join.child criteria
    correlation :=
      "\"" ++ join.child ++ "\".\"" ++ join.childKey ++ "\" = \"" ++
        getParentAlias join ++ "\".\"" ++ join.parentKey ++ "\"" }

/-- `let start = (criteria.skip || 0) + 1` (src/lib/util.js:361). -/
def aggSliceStart (criteria : Criteria) : Int :=
  jsOrInt criteria.skip 0 + 1

/-- `let end = (criteria.limit || (this.PG_MAX_INT - start)) + start - 1`
(src/lib/util.js:362). -/
def aggSliceEnd (criteria : Criteria) : Int :=
  jsOrInt criteria.limit (PG_MAX_INT - aggSliceStart criteria) + aggSliceStart criteria - 1

/-- `buildSelectAggregationColumns` (src/lib/util.js:354-370): one
aggregated, sliced, null-cleaned `array_to_json` column per join not
flagged `select: false`.  The string below reproduces the source's
template literal byte for byte. -/
def buildSelectAggregationColumns (options : FindOptions) : List String :=
  (options.joins.filter fun j => ¬ j.select = some false).map fun join =>
    let criteria := join.criteria.getD { }
    let subqueryAlias := getSubqueryAlias join
    let asColumn := getJoinAlias join
    let orderBy := buildOrderByClause subqueryAlias criteria
    "\n        array_to_json(\n          (array_remove(array_agg(\"" ++ subqueryAlias ++
      "\".* order by " ++ orderBy ++ "), null))[" ++ toString (aggSliceStart criteria) ++
      ":" ++ toString (aggSliceEnd criteria) ++ "]\n        ) as \"" ++ asColumn ++ "\"\n      "

/-- One waterline collection as the adapter reads it: its attribute
definitions, keyed by attribute name. -/
structure Collection where
  definition : List (String × JSValue)
deriving Repr

/-- `Adapter.getPrimaryKey` (src/lib/adapter.js:440-454): the first
attribute flagged `primaryKey === true`, defaulting to `id`.  The source
memoizes the result on `definition._pk`; the memoized value is always
identical to the recomputation, so the cache is dropped here. -/
def getPrimaryKey (collections : List (String × Collection)) (tableName : String) : String :=
  let definition :=
    (((collections.find? fun c => c.1 = tableName).map fun c => c.2.definition).getD [])
  ((definition.find? fun a => beqOptKey (jsGet a.2 "primaryKey") (some (JSValue.boolean true)))
    |>.map (fun a => a.1)).getD "id"

/-- The joined root query assembled by `buildKnexJoin`:
`knex.select(raw).from(t).where(w).groupBy(pk).orderByRaw(o).limit(l).offset(s)`
plus one lateral join per join specification. -/
structure KnexJoinQuery where
  selectClause : String
  fromTable : String
  whereClause : WhereClause
  groupByClause : String
  orderByRawClause : String
  limit : Int
  offset : Int
  lateralJoins : List (KnexSubquery × String)
deriving Repr

/-- `buildKnexJoin` (src/lib/util.js:273-297).  Each lateral join is kept
as the built subquery paired with its alias; the source renders it as
`left join lateral (subquery) as "alias" on true`.  The source resolves
the primary key through `Adapter.getPrimaryKey`; its first argument is
modelled as the connection's collections, which is what the lookup
dereferences. -/
def buildKnexJoin (collections : List (String × Collection)) (tableName : String)
    (options : FindOptions) : KnexJoinQuery :=
  let pk := getPrimaryKey collections tableName
  { selectClause :=
      String.intercalate ", "
        (("\"" ++ tableName ++ "\".*") :: buildSelectAggregationColumns options)
    fromTable := tableName
    whereClause := buildWhereClause tableName options.toCriteria
    groupByClause := tableName ++ "." ++ pk
    orderByRawClause := buildOrderByClause tableName options.toCriteria
    limit := jsOrInt options.limit PG_MAX_INT
    offset := jsOrInt options.skip 0
    lateralJoins := options.joins.map fun join =>
      (buildKnexJoinSubquery join, getSubqueryAlias join) }

/-! ### Table-name handling in define/addAttribute (src/lib/adapter.js:234-302) -/

/-- The two places an operation refers to its target table: the
`cxn.collections[...]` schema lookup and the table name put into the
emitted SQL. -/
structure TableNameUse where
  collectionLookup : String
  sqlTable : String
deriving Repr, DecidableEq

/-- JavaScript `s.substring(0, n)`: the first `n` code units.  Table
names here are ASCII, where code units and characters coincide. -/
def jsSubstring (s : String) (n : Nat) : String :=
  String.mk (s.data.take n)

/-- Name usage of `define` (src/lib/adapter.js:234-260): the collection
is looked up under the caller's `_tableName`, while
`hasTable`/`createTable` receive `_tableName.substring(0, 63)`. -/
def defineNameUse (_tableName : String) : TableNameUse :=
  { collectionLookup := _tableName, sqlTable := jsSubstring _tableName 63 }

/-- Name usage of `addAttribute` (src/lib/adapter.js:286-302): both the
collection lookup and `knex.schema.table` receive the caller's
`tableName` unchanged — no truncation happens here. -/
def addAttributeNameUse (tableName : String) : TableNameUse :=
  { collectionLookup := tableName, sqlTable := tableName }

/-! ### Join result de-duplication (src/lib/adapter.js:417-425) -/

/-- `true` on every value except `null`. -/
def isNotNull : JSValue → Bool
  | JSValue.null => false
  | _ => true

/-- The scan of lodash `_.uniqBy`: keep an element iff its key has not
been seen before, first occurrence wins. -/
def uniqByAux (key : JSValue → Option JSValue) (seen : List (Option JSValue)) :
    List JSValue → List JSValue
  | [] => []
  | x :: rest =>
    if seen.any fun k => beqOptKey k (key x) then uniqByAux key seen rest
    else x :: uniqByAux key (key x :: seen) rest

/-- `_.uniqBy(rows, pk)` with the property-shorthand iteratee used at
src/lib/adapter.js:423. -/
def uniqBy (pk : String) (rows : List JSValue) : List JSValue :=
  uniqByAux (fun v => jsGet v pk) [] rows

/-- `_.compact`: drop the falsy elements, in particular the `null`
placeholders of the lateral aggregate. -/
def compact (rows : List JSValue) : List JSValue :=
  rows.filter truthy

/-- Modelled from the spec: `castResultRows` is called throughout
src/lib/adapter.js but its definition is not among the provided source
files.  Spec §4.5: "For each row and each schema-declared column,
reinterpret driver-native values per the column's declared type ...
textually-encoded array/bracketed literals must be parsed back into
sequences" — each raw row is reinterpreted independently, yielding one
typed row per raw row.  The schema is the map from column name to
declared type tag. -/
def castResultRow (schema : List (String × String)) (row : JSValue) : JSValue :=
  match row with
  | JSValue.obj fields =>
    JSValue.obj (fields.map fun kv =>
      if (schema.find? fun s => s.1 = kv.1).map (fun s => s.2) = some "array" then
        (kv.1,
          match kv.2 with
          | JSValue.str s =>
            (match jsonParse s with
             | Except.ok (JSValue.arr xs) => JSValue.arr xs
             | _ => kv.2)
          | _ => kv.2)
      else kv)
  | v => v

/-- Modelled from the spec: the row-list form of `castResultRow` (the
spec's `castRows`), mapping each row independently. -/
def castResultRows (schema : List (String × String)) (rows : List JSValue) : List JSValue :=
  rows.map (castResultRow schema)

/-- The per-association post-processing of `join`
(src/lib/adapter.js:422-424):
`row[alias] = Util.castResultRows(_.compact(_.uniqBy(row[alias], pk)), schema)`. -/
def joinAssociationRows (pk : String) (schema : List (String × String))
    (rows : List JSValue) : List JSValue :=
  castResultRows schema (compact (uniqBy pk rows))

/-! ## Theorems -/

mutual

theorem beqJS_refl : ∀ a, beqJS a a = true
  | JSValue.null => rfl
  | JSValue.boolean _ => by simp [beqJS]
  | JSValue.number _ => by simp [beqJS]
  | JSValue.str _ => by simp [beqJS]
  | JSValue.arr xs => by simp [beqJS, beqJSList_refl xs]
  | JSValue.obj fs => by simp [beqJS, beqJSFields_refl fs]

theorem beqJSList_refl : ∀ xs, beqJSList xs xs = true
  | [] => rfl
  | x :: xs => by simp [beqJSList, beqJS_refl x, beqJSList_refl xs]

theorem beqJSFields_refl : ∀ fs, beqJSFields fs fs = true
  | [] => rfl
  | (_, v) :: fs => by simp [beqJSFields, beqJS_refl v, beqJSFields_refl fs]

end

theorem rawQueryAux_count (s : List Char) :
    ∀ b, countQMarks (rawQueryAux b s) = countQMarks s + dollarMatches b s := by
  induction s with
  | nil => intro b; rfl
  | cons c rest ih =>
    intro b
    simp only [rawQueryAux, dollarMatches]
    split_ifs with h1 h2
    · rcases h1 with ⟨_, hd⟩
      have hc : ¬ c = '?' := by
        intro e; rw [e] at hd; simp [isDigitChar] at hd
      simp [countQMarks, hc, ih]
    · rcases h2 with ⟨he, _⟩
      have hc : ¬ c = '?' := by rw [he]; decide
      simp [countQMarks, hc, ih]
      omega
    · simp [countQMarks, ih]
      omega

theorem castValues_ok_forall2 :
    ∀ vs ws, castValues vs = Except.ok ws →
      List.Forall₂ (fun v w => castValue v = Except.ok w) vs ws := by
  intro vs
  induction vs with
  | nil =>
    intro ws h
    simp only [castValues] at h
    cases h
    exact List.Forall₂.nil
  | cons v rest ih =>
    intro ws h
    simp only [castValues] at h
    split at h
    · cases h
    · split at h
      · cases h
      · cases h
        exact List.Forall₂.cons (by assumption) (ih _ (by assumption))

/-- C1.  The placeholder rewriting turns each `$`-digits occurrence into
exactly one `?` and creates no other placeholders (the `?` count of the
rewritten text is the input's `?` count plus the number of `$`-digits
matches), `castValues` succeeds with a list of the same length and order
as its input (pointwise image under `castValue`), and hence for SQL text
free of stray `?` whose `$n` placeholder count equals the parameter
count, the compiled query has as many `?` placeholders as parameters. -/
theorem c1_placeholder_count_matches_params :
    (∀ sql : String,
      countQMarks (toKnexRawQuery sql).data = countQMarks sql.data + dollarMatches false sql.data)
    ∧ (∀ vs ws, castValues vs = Except.ok ws →
        ws.length = vs.length ∧ List.Forall₂ (fun v w => castValue v = Except.ok w) vs ws)
    ∧ (∀ (sql : String) (vs ws : List JSValue),
        countQMarks sql.data = 0 →
        dollarMatches false sql.data = vs.length →
        castValues vs = Except.ok ws →
        countQMarks (toKnexRawQuery sql).data = ws.length) := by
  refine ⟨fun sql => rawQueryAux_count sql.data false, fun vs ws h => ?_, ?_⟩
  · have h2 := castValues_ok_forall2 vs ws h
    exact ⟨h2.length_eq.symm, h2⟩
  · intro sql vs ws h0 hn hc
    have h2 := (castValues_ok_forall2 vs ws hc).length_eq
    have hdata : (toKnexRawQuery sql).data = rawQueryAux false sql.data := rfl
    rw [hdata, rawQueryAux_count sql.data false, h0, hn, h2]
    simp

/-- Witness for C1 at a concrete compiled query: two `$n` placeholders,
no stray `?`, two parameters surviving `castValues`. -/
theorem c1_witness :
    countQMarks (toKnexRawQuery "select x from t where a = $1 and b = $2").data = 2 :=
  c1_placeholder_count_matches_params.2.2
    "select x from t where a = $1 and b = $2"
    [JSValue.str "hi", JSValue.number "3"] [JSValue.str "hi", JSValue.number "3"]
    (by decide) (by decide) rfl

theorem parseValue_lbracket (n : Nat) (rest : List Char) :
    parseValue (n + 1) ('[' :: rest) =
      (if (skipWs rest).head? = some ']' then
        Except.ok (JSValue.arr [], (skipWs rest).tail)
      else
        match parseElements n rest with
        | Except.ok (xs, rem) => Except.ok (JSValue.arr xs, rem)
        | Except.error msg => Except.error msg) := rfl

theorem parseValue_lbracket_shape (n : Nat) (rest : List Char) :
    (∃ e, parseValue (n + 1) ('[' :: rest) = Except.error e) ∨
    (∃ xs rem, parseValue (n + 1) ('[' :: rest) = Except.ok (JSValue.arr xs, rem)) := by
  rw [parseValue_lbracket]
  split_ifs with h1
  · exact Or.inr ⟨[], (skipWs rest).tail, rfl⟩
  · rcases h2 : parseElements n rest with e | ⟨xs, rem2⟩
    · exact Or.inl ⟨e, by simp [h2]⟩
    · exact Or.inr ⟨xs, rem2, by simp [h2]⟩

theorem jsonParse_bracket_is_array :
    ∀ (s : String) (v : JSValue), s.data.head? = some '[' → jsonParse s = Except.ok v →
      ∃ xs, v = JSValue.arr xs := by
  intro s v hhead hp
  obtain ⟨rest, hs⟩ : ∃ rest, s.data = '[' :: rest := by
    cases hd : s.data with
    | nil => rw [hd] at hhead; cases hhead
    | cons a r =>
      rw [hd] at hhead
      simp only [List.head?] at hhead
      injection hhead with ha
      exact ⟨r, by rw [ha]⟩
  unfold jsonParse at hp
  rw [hs] at hp
  rcases parseValue_lbracket_shape s.length rest with ⟨e, he⟩ | ⟨xs, rem, hok⟩
  · rw [he] at hp; cases hp
  · rw [hok] at hp
    dsimp only at hp
    cases h3 : skipWs rem with
    | nil =>
      rw [h3] at hp
      cases hp
      exact ⟨xs, rfl⟩
    | cons c r =>
      rw [h3] at hp
      cases hp

/-- C9.  `castValue` leaves every value that is not a `[`-initial string
unchanged; a `[`-initial string is replaced by its JSON-parsed array
(a successful parse of such a string is always an array); and on the
string `[not json` — a `[`-initial string that is not valid JSON —
`castValues` propagates the parse error instead of returning, so value
casting is not total on arbitrary strings. -/
theorem c9_cast_values_partiality :
    (∀ v, isBracketString v = false → castValue v = Except.ok v)
    ∧ (∀ (s : String) (xs : List JSValue), s.data.head? = some '[' →
        jsonParse s = Except.ok (JSValue.arr xs) →
        castValue (JSValue.str s) = Except.ok (JSValue.arr xs))
    ∧ (∀ (s : String) (v : JSValue), s.data.head? = some '[' → jsonParse s = Except.ok v →
        ∃ xs, v = JSValue.arr xs)
    ∧ (∃ e, castValues [JSValue.str "[not json"] = Except.error e) := by
  refine ⟨?_, ?_, jsonParse_bracket_is_array, ⟨"Unexpected token in JSON", rfl⟩⟩
  · intro v h
    cases v with
    | str s =>
      have hne : ¬ s.data.head? = some '[' := by
        intro he
        rw [isBracketString, he] at h
        simp at h
      simp [castValue, hne]
    | null => rfl
    | boolean b => rfl
    | number m => rfl
    | arr xs => rfl
    | obj fs => rfl
  · intro s xs hhead hp
    simp [castValue, hhead, hp]

/-- Witness for C9: a non-bracket value passes through unchanged, and a
valid JSON-array string is replaced by the parsed array. -/
theorem c9_witness :
    castValue (JSValue.number "5") = Except.ok (JSValue.number "5")
    ∧ castValue (JSValue.str "[1]") = Except.ok (JSValue.arr [JSValue.number "1"]) :=
  ⟨c9_cast_values_partiality.1 (JSValue.number "5") rfl,
   c9_cast_values_partiality.2.1 "[1]" [JSValue.number "1"] rfl rfl⟩

/-- C2 (counterexample).  At offset 1, limit 2 the code slices the
aggregated association array with the 1-based inclusive range `[2:3]`
(upper bound offset+limit = 3), not `[2:4]` as the claimed upper bound
(offset+limit+offset = 4) requires; the full emitted aggregation column
shows the `[2:3]` window. -/
theorem c2_counterexample :
    aggSliceStart { skip := some 1, limit := some 2 } = 2
    ∧ aggSliceEnd { skip := some 1, limit := some 2 } = 3
    ∧ ((1 : Int) + 2 + 1 = 4)
    ∧ aggSliceEnd { skip := some 1, limit := some 2 } ≠ 1 + 2 + 1
    ∧ buildSelectAggregationColumns
        { joins := [{ aliasName := "posts", parent := "users", parentKey := "id",
                      child := "posts", childKey := "userId",
                      criteria := some { skip := some 1, limit := some 2 } }] }
      = ["\n        array_to_json(\n          (array_remove(array_agg(\"postsposts\".* order by 1), null))[2:3]\n        ) as \"posts\"\n      "] := by
  exact ⟨rfl, rfl, by decide, by decide, rfl⟩

/-- C2 (amended).  For a selected association with nonzero offset o and
nonzero limit l, the aggregated per-parent child array is sliced to the
1-based inclusive index range from (o+1) through (o+l); an absent or
zero offset gives lower bound 1, and an absent or zero limit gives
upper bound PG_MAX_INT - 1 (both via the JS `||` fallback). -/
theorem c2_amended_slice_bounds :
    (∀ (c : Criteria) (o l : Int), c.skip = some o → o ≠ 0 → c.limit = some l → l ≠ 0 →
      aggSliceStart c = o + 1 ∧ aggSliceEnd c = o + l)
    ∧ (∀ c : Criteria, c.skip = none ∨ c.skip = some 0 → aggSliceStart c = 1)
    ∧ (∀ c : Criteria, c.limit = none ∨ c.limit = some 0 → aggSliceEnd c = PG_MAX_INT - 1) := by
  refine ⟨?_, ?_, ?_⟩
  · intro c o l hs ho hl hlne
    constructor
    · simp [aggSliceStart, jsOrInt, hs, ho]
    · simp [aggSliceEnd, aggSliceStart, jsOrInt, hs, hl, ho, hlne]
      ring
  · intro c hs
    rcases hs with hs | hs <;> simp [aggSliceStart, jsOrInt, hs]
  · intro c hl
    rcases hl with hl | hl <;> simp [aggSliceEnd, jsOrInt, hl]

/-- Witness for the amended C2: offset 2, limit 5 gives window `[3:7]`;
a zero offset gives lower bound 1 and a zero limit gives upper bound
PG_MAX_INT - 1. -/
theorem c2_amended_witness :
    (aggSliceStart { skip := some 2, limit := some 5 } = 2 + 1
      ∧ aggSliceEnd { skip := some 2, limit := some 5 } = 2 + 5)
    ∧ aggSliceStart { skip := some 0 } = 1
    ∧ aggSliceEnd { skip := some 3, limit := some 0 } = PG_MAX_INT - 1 :=
  ⟨c2_amended_slice_bounds.1 { skip := some 2, limit := some 5 } 2 5 rfl (by decide) rfl
      (by decide),
   c2_amended_slice_bounds.2.1 { skip := some 0 } (Or.inr rfl),
   c2_amended_slice_bounds.2.2 { skip := some 3, limit := some 0 } (Or.inr rfl)⟩

/-- C4.  An attribute whose (lowercased, auto-increment-adjusted) type
tag is outside the supported set maps to the generic text column with
exactly one diagnostic; and the diagnostic count is one exactly on
unknown tags, zero on supported ones.  `toKnexColumn` is a total
function in this embedding — no type tag throws. -/
theorem c4_unknown_type_degrades_to_text :
    (∀ (n : String) (d : AttrDefinition), effectiveTypeTag d ∉ supportedTypeTags →
      toKnexColumn n d = (KnexColumn.text (effectiveColumnName n d) none, 1))
    ∧ (∀ (n : String) (d : AttrDefinition),
        (toKnexColumn n d).2 = if effectiveTypeTag d ∈ supportedTypeTags then 0 else 1) := by
  constructor
  · intro n d h
    unfold toKnexColumn
    split
    all_goals try rfl
    all_goals (exfalso; apply h; simp_all [supportedTypeTags])
  · intro n d
    unfold toKnexColumn
    split
    all_goals simp_all [supportedTypeTags]

/-- Witness for C4 at the spec's example tag `made-up-type`. -/
theorem c4_witness :
    toKnexColumn "col" (AttrDefinition.strTag "made-up-type")
      = (KnexColumn.text "col" none, 1) :=
  c4_unknown_type_degrades_to_text.1 "col" (AttrDefinition.strTag "made-up-type") (by decide)

/-- C5.  The correlated subquery's equality correlation compares the
child key against the parent alias, which is the parent table's own
name for a direct association and the association's (resolved) alias
concatenated with the parent table name for a junction-table-mediated
association. -/
theorem c5_parent_alias_composition :
    ∀ j : Join,
      (j.junctionTable = false → getParentAlias j = j.parent)
      ∧ (j.junctionTable = true → getParentAlias j = getJoinAlias j ++ j.parent)
      ∧ (buildKnexJoinSubquery j).correlation =
          "\"" ++ j.child ++ "\".\"" ++ j.childKey ++ "\" = \"" ++ getParentAlias j
            ++ "\".\"" ++ j.parentKey ++ "\"" := by
  intro j
  refine ⟨fun h => ?_, fun h => ?_, rfl⟩
  · simp [getParentAlias, h]
  · simp [getParentAlias, h]

/-- Witness for C5: a direct association and a junction-table one. -/
theorem c5_witness :
    getParentAlias { aliasName := "posts", parent := "users", parentKey := "id",
                     child := "posts", childKey := "userId" } = "users"
    ∧ getParentAlias { aliasName := "posts", parent := "users", parentKey := "id",
                       child := "posts_users", childKey := "userId",
                       junctionTable := true }
      = getJoinAlias { aliasName := "posts", parent := "users", parentKey := "id",
                       child := "posts_users", childKey := "userId",
                       junctionTable := true } ++ "users" :=
  ⟨(c5_parent_alias_composition _).1 rfl, (c5_parent_alias_composition _).2.1 rfl⟩

/-- C6 (code bug).  For the 64-character table name `aaa…a`: `define`
looks the collection up under the full name but emits SQL against the
63-character truncation, and `addAttribute` applies no truncation at
all — so the truncation is not applied consistently across the places
the same table is referenced, contrary to the claim. -/
theorem c6_truncation_inconsistency :
    (String.mk (List.replicate 64 'a')).length = 64
    ∧ (defineNameUse (String.mk (List.replicate 64 'a'))).sqlTable
        ≠ (defineNameUse (String.mk (List.replicate 64 'a'))).collectionLookup
    ∧ (addAttributeNameUse (String.mk (List.replicate 64 'a'))).sqlTable
        = String.mk (List.replicate 64 'a')
    ∧ (addAttributeNameUse (String.mk (List.replicate 64 'a'))).sqlTable
        ≠ (defineNameUse (String.mk (List.replicate 64 'a'))).sqlTable := by
  refine ⟨by decide, by decide, rfl, by decide⟩

/-- C7.  An empty sort specification compiles to the constant fragment
`1` (so any two no-sort invocations agree byte for byte), and a
non-empty one renders each field qualified by the table name, ascending
as the empty modifier and descending as `desc`, joined in specification
order. -/
theorem c7_order_by_clause :
    (∀ (t : String) (o o' : Criteria), o.sort = [] → o'.sort = [] →
      buildOrderByClause t o = "1" ∧ buildOrderByClause t o = buildOrderByClause t o')
    ∧ (∀ (t : String) (o : Criteria), o.sort ≠ [] →
        buildOrderByClause t o =
          String.intercalate ", " (o.sort.map fun fd =>
            "\"" ++ t ++ "\".\"" ++ fd.1 ++ "\" " ++ (if fd.2 = 1 then "" else "desc"))) := by
  constructor
  · intro t o o' h h'
    constructor <;> simp [buildOrderByClause, h, h']
  · intro t o h
    simp [buildOrderByClause, h]

/-- Witness for C7: no sort gives `1`; a two-field sort renders in
order with `desc` on the descending field. -/
theorem c7_witness :
    buildOrderByClause "users" { } = "1"
    ∧ buildOrderByClause "users" { sort := [("name", 1), ("age", -1)] }
      = String.intercalate ", "
          ([("name", (1 : Int)), ("age", -1)].map fun fd =>
            "\"" ++ "users" ++ "\".\"" ++ fd.1 ++ "\" " ++ (if fd.2 = 1 then "" else "desc")) :=
  ⟨((c7_order_by_clause.1 "users" { } { } rfl rfl).1),
   c7_order_by_clause.2 "users" { sort := [("name", 1), ("age", -1)] } (by decide)⟩

/-- C8.  In the joined root query, an unspecified limit compiles to the
dialect maximum PG_MAX_INT = 2147483647 rather than an absent bound,
and an unspecified skip compiles to offset 0. -/
theorem c8_limit_offset_defaults :
    ∀ (collections : List (String × Collection)) (t : String) (o : FindOptions),
      (o.limit = none →
        (buildKnexJoin collections t o).limit = PG_MAX_INT ∧ PG_MAX_INT = 2147483647)
      ∧ (o.skip = none → (buildKnexJoin collections t o).offset = 0) := by
  intro cs t o
  refine ⟨fun h => ⟨?_, rfl⟩, fun h => ?_⟩ <;> simp [buildKnexJoin, jsOrInt, h]

/-- Witness for C8: empty options. -/
theorem c8_witness :
    (buildKnexJoin [] "t" { }).limit = PG_MAX_INT
    ∧ (buildKnexJoin [] "t" { }).offset = 0 :=
  ⟨((c8_limit_offset_defaults [] "t" { }).1 rfl).1, (c8_limit_offset_defaults [] "t" { }).2 rfl⟩

/-- C10.  A falsy constraint value produces no column operation: in
particular `defaultsTo` of `false`, `0`, the empty string or `null` is
never set as a default, `notNull: false` and `unique: false` add no
constraint, and an attribute object all of whose property values are
falsy contributes no operation at all. -/
theorem c10_falsy_constraint_noop :
    (∀ (k : String) (v : JSValue), truthy v = false →
      applyParticularColumnConstraint k v = ConstraintAction.noop)
    ∧ applyParticularColumnConstraint "defaultsTo" (JSValue.boolean false) = ConstraintAction.noop
    ∧ applyParticularColumnConstraint "defaultsTo" (JSValue.number "0") = ConstraintAction.noop
    ∧ applyParticularColumnConstraint "defaultsTo" (JSValue.str "") = ConstraintAction.noop
    ∧ applyParticularColumnConstraint "defaultsTo" JSValue.null = ConstraintAction.noop
    ∧ applyParticularColumnConstraint "notNull" (JSValue.boolean false) = ConstraintAction.noop
    ∧ applyParticularColumnConstraint "unique" (JSValue.boolean false) = ConstraintAction.noop
    ∧ (∀ fields : List (String × JSValue), (∀ kv ∈ fields, truthy kv.2 = false) →
        applyColumnConstraints (JSValue.obj fields) =
          List.replicate fields.length ConstraintAction.noop) := by
  refine ⟨?_, rfl, rfl, rfl, rfl, rfl, rfl, ?_⟩
  · intro k v h
    simp [applyParticularColumnConstraint, h]
  · intro fields hall
    rw [List.eq_replicate_iff]
    refine ⟨by simp [applyColumnConstraints], ?_⟩
    intro b hb
    simp only [applyColumnConstraints, List.mem_map] at hb
    obtain ⟨kv, hkv, hbe⟩ := hb
    subst hbe
    split
    · rfl
    · simp [applyParticularColumnConstraint, hall kv hkv]

/-- Witness for C10: a falsy `defaultsTo` and an all-falsy attribute
object. -/
theorem c10_witness :
    applyParticularColumnConstraint "defaultsTo" (JSValue.number "0") = ConstraintAction.noop
    ∧ applyColumnConstraints
        (JSValue.obj [("notNull", JSValue.boolean false), ("defaultsTo", JSValue.str "")])
      = List.replicate 2 ConstraintAction.noop :=
  ⟨c10_falsy_constraint_noop.1 "defaultsTo" (JSValue.number "0") rfl,
   c10_falsy_constraint_noop.2.2.2.2.2.2.2
     [("notNull", JSValue.boolean false), ("defaultsTo", JSValue.str "")]
     (by
       intro kv hkv
       simp only [List.mem_cons, List.not_mem_nil, or_false] at hkv
       rcases hkv with rfl | rfl <;> rfl)⟩

theorem truthy_of_jsGet_some (x : JSValue) (pk : String) (v : JSValue)
    (h : jsGet x pk = some v) : truthy x = true := by
  cases x <;> simp [jsGet, truthy] at h ⊢

theorem isNotNull_of_jsGet_some (x : JSValue) (pk : String) (v : JSValue)
    (h : jsGet x pk = some v) : isNotNull x = true := by
  cases x <;> simp [jsGet, isNotNull] at h ⊢

theorem c3_aux_seen (pk : String) (v : JSValue) :
    ∀ (xs : List JSValue) (seen : List (Option JSValue)),
      (∀ x ∈ xs, x = JSValue.null ∨ jsGet x pk = some v) →
      (seen.any fun k => beqOptKey k (some v)) = true →
      compact (uniqByAux (fun w => jsGet w pk) seen xs) = [] := by
  intro xs
  induction xs with
  | nil => intro seen _ _; rfl
  | cons x rest ih =>
    intro seen hall hseen
    have hrest : ∀ y ∈ rest, y = JSValue.null ∨ jsGet y pk = some v :=
      fun y hy => hall y (List.mem_cons_of_mem x hy)
    rcases hall x (List.mem_cons_self x rest) with hx | hx
    · subst hx
      simp only [uniqByAux, jsGet]
      split_ifs with hmem
      · exact ih seen hrest hseen
      · have hseen2 : ((none :: seen).any fun k => beqOptKey k (some v)) = true := by
          rw [List.any_cons, hseen, Bool.or_true]
        have htail := ih (none :: seen) hrest hseen2
        simpa [compact, List.filter_cons, truthy] using htail
    · simp only [uniqByAux, hx]
      rw [if_pos hseen]
      exact ih seen hrest hseen

theorem c3_aux_notseen (pk : String) (v : JSValue) :
    ∀ (xs : List JSValue) (seen : List (Option JSValue)),
      (∀ x ∈ xs, x = JSValue.null ∨ jsGet x pk = some v) →
      (seen.any fun k => beqOptKey k (some v)) = false →
      compact (uniqByAux (fun w => jsGet w pk) seen xs) =
        (match xs.find? isNotNull with
         | some y => [y]
         | none => []) := by
  intro xs
  induction xs with
  | nil => intro seen _ _; rfl
  | cons x rest ih =>
    intro seen hall hseen
    have hrest : ∀ y ∈ rest, y = JSValue.null ∨ jsGet y pk = some v :=
      fun y hy => hall y (List.mem_cons_of_mem x hy)
    rcases hall x (List.mem_cons_self x rest) with hx | hx
    · subst hx
      have hfind : (JSValue.null :: rest).find? isNotNull = rest.find? isNotNull := by
        simp [List.find?, isNotNull]
      rw [hfind]
      simp only [uniqByAux, jsGet]
      split_ifs with hmem
      · exact ih seen hrest hseen
      · have hseen2 : ((none :: seen).any fun k => beqOptKey k (some v)) = false := by
          rw [List.any_cons, hseen, Bool.or_false]
          rfl
        have htail := ih (none :: seen) hrest hseen2
        simpa [compact, List.filter_cons, truthy] using htail
    · have hnn : isNotNull x = true := isNotNull_of_jsGet_some x pk v hx
      have hfind : (x :: rest).find? isNotNull = some x := by
        simp [List.find?, hnn]
      rw [hfind]
      simp only [uniqByAux, hx]
      rw [if_neg (by rw [hseen]; exact Bool.false_ne_true)]
      have hseen2 : ((some v :: seen).any fun k => beqOptKey k (some v)) = true := by
        have hv : beqOptKey (some v) (some v) = true := by
          simp [beqOptKey, beqJS_refl]
        rw [List.any_cons, hv, Bool.true_or]
      have htail := c3_aux_seen pk v rest (some v :: seen) hrest hseen2
      have htr : truthy x = true := truthy_of_jsGet_some x pk v hx
      simp only [compact, List.filter_cons, htr, if_true] at htail ⊢
      rw [htail]

/-- C3.  In the `join` post-processing, the nested rows of an
association are de-duplicated by the child primary key first-seen-wins
and the null placeholders are dropped: when every row of the nested
array is either null or carries the same primary-key value, the result
is exactly one nested record — the cast of the first non-null row. -/
theorem c3_join_dedup_first_seen :
    ∀ (pk : String) (schema : List (String × String)) (v : JSValue)
      (xs : List JSValue) (y : JSValue),
      (∀ x ∈ xs, x = JSValue.null ∨ jsGet x pk = some v) →
      xs.find? isNotNull = some y →
      joinAssociationRows pk schema xs = [castResultRow schema y] := by
  intro pk schema v xs y hall hfind
  unfold joinAssociationRows uniqBy
  rw [c3_aux_notseen pk v xs [] hall rfl, hfind]
  rfl

/-- Witness for C3: two duplicate child rows with primary key 1 and two
null placeholders collapse to the first row. -/
theorem c3_witness :
    joinAssociationRows "id" []
        [JSValue.null,
         JSValue.obj [("id", JSValue.number "1"), ("t", JSValue.str "a")],
         JSValue.obj [("id", JSValue.number "1"), ("t", JSValue.str "b")],
         JSValue.null]
      = [castResultRow [] (JSValue.obj [("id", JSValue.number "1"), ("t", JSValue.str "a")])] :=
  c3_join_dedup_first_seen "id" [] (JSValue.number "1") _ _
    (by
      intro x hx
      simp only [List.mem_cons, List.not_mem_nil, or_false] at hx
      rcases hx with rfl | rfl | rfl | rfl
      · exact Or.inl rfl
      · exact Or.inr rfl
      · exact Or.inr rfl
      · exact Or.inl rfl)
    rfl

end PgAdapter
